import Mathlib

/-!
# Log-stream WebSocket client (`static/websocket_client.js`)

A shallow embedding of the browser-side client.  The module owns one global
variable (`socket`) and writes to two page elements (the status text and the
log container).  The page, the WebSocket objects and the console are the
platform; they are represented here by plain data:

* the status element by its `textContent`;
* the log container by its list of child nodes and its scroll offset;
* every WebSocket object ever constructed by a record of the calls the client
  made on it (`send`, `close`) together with the credential captured by the
  closures registered on it;
* the console by the list of diagnostics written to it.

Replacing the content of the log container through `innerHTML` clamps its
scroll offset to what the new content admits, as assigning `scrollTop` does.
`connectWebSocket`, the one function with a `try` block, returns the state it
leaves together with the exception that leaves it, if any.

The three page elements looked up by `connectWebSocket` are taken to exist and
inbound payloads are taken to be text.  Strings are sequences of characters.
All patterns and markers in the source are ASCII, so matching on characters
agrees with matching on UTF-16 code units.
-/

namespace WebsocketClient

/-! ## Platform data -/

/-- An element created by `document.createElement('div')`: its class list and
its text content. -/
structure Entry where
  classList : List String
  textContent : String
deriving DecidableEq, Repr

/-- A child node of the log container: either a bare text node (what assigning
markup-free text to `innerHTML` produces) or an appended `div`. -/
inductive Node where
  | text (content : String)
  | div (entry : Entry)
deriving DecidableEq, Repr

/-- A WebSocket object as the client sees it.  `password` is the value captured
by the closures registered on this object; `opened` and `closed` record whether
the platform has delivered the open and the close event; `sent` lists the
payloads passed to `send` in call order; `closeCalls` counts calls of `close`. -/
structure Transport where
  url : String
  password : String
  opened : Bool
  closed : Bool
  sent : List String
  closeCalls : Nat
deriving DecidableEq, Repr

/-- The client state: the module variable `socket` (an index into the list of
all WebSocket objects constructed so far, or empty), the status text, the log
container and the console. -/
structure State where
  socket : Option Nat
  transports : List Transport
  status : String
  log : List Node
  scrollTop : Nat
  console : List String
deriving DecidableEq, Repr

/-- Geometry of the log container, supplied by the page: the height of a given
content and the height of the visible box. -/
structure Layout where
  scrollHeight : List Node → Nat
  clientHeight : Nat

/-- The largest scroll offset the container admits for a given content. -/
def maxScroll (L : Layout) (content : List Node) : Nat :=
  L.scrollHeight content - L.clientHeight

/-- The `scrollTop` setter: the requested offset is clamped to the largest
admissible one. -/
def setScrollTop (L : Layout) (content : List Node) (v : Nat) : Nat :=
  min v (maxScroll L content)

/-- The `innerHTML` setter of the log container: the children are replaced by
the given content, and the scroll offset is clamped to the largest one the new
content admits. -/
def setInnerHTML (L : Layout) (content : List Node) (s : State) : State :=
  { s with log := content, scrollTop := min s.scrollTop (maxScroll L content) }

/-- The outcome of running a block of statements: the state it leaves behind
and the message of the exception that leaves the block, if one does. -/
structure Completion where
  state : State
  thrown : Option String
deriving DecidableEq, Repr

/-- Apply `f` to the element at index `k`, leaving the list as it is when `k`
is out of range. -/
def updateAt {α : Type} (f : α → α) : Nat → List α → List α
  | _, [] => []
  | 0, x :: xs => f x :: xs
  | k + 1, x :: xs => x :: updateAt f k xs

/-- The method `send(payload)` of a WebSocket object. -/
def Transport.send (payload : String) (t : Transport) : Transport :=
  { t with sent := t.sent ++ [payload] }

/-- The method `close()` of a WebSocket object. -/
def Transport.close (t : Transport) : Transport :=
  { t with closeCalls := t.closeCalls + 1 }

/-- `DOMTokenList.add`: the token is appended unless already present. -/
def Entry.classListAdd (token : String) (e : Entry) : Entry :=
  if token ∈ e.classList then e else { e with classList := e.classList ++ [token] }

/-! ## String helpers of the source language -/

/-- `String.prototype.startsWith`. -/
def startsWith (data marker : String) : Bool :=
  marker.data.isPrefixOf data.data

/-- The character class `[A-Z_]`. -/
def isTokenChar (c : Char) : Bool :=
  (65 ≤ c.toNat && c.toNat ≤ 90) || c.toNat = 95

/-- The pattern `\[([A-Z_]+)\]` anchored at the head of the input: an opening
bracket, the greedy run of class characters (at least one), a closing bracket.
The result is the captured group.  Backtracking into the run cannot help,
because the closing bracket is not a class character. -/
def matchHere (cs : List Char) : Option (List Char) :=
  match cs with
  | [] => none
  | c :: rest =>
    if c = '[' then
      match rest.takeWhile isTokenChar, rest.dropWhile isTokenChar with
      | _ :: _, d :: _ => if d = ']' then some (rest.takeWhile isTokenChar) else none
      | _, _ => none
    else none

/-- The pattern tried at every start position from the left; the first
position that matches wins. -/
def matchFrom : List Char → Option (List Char)
  | [] => none
  | c :: rest =>
    match matchHere (c :: rest) with
    | some t => some t
    | none => matchFrom rest

/-- The expression `data.match(/\[([A-Z_]+)\]/)` followed by `match[1]`: the first
capture group of the leftmost match, or nothing when there is no match. -/
def jsMatch (data : String) : Option String :=
  (matchFrom data.data).map String.mk

/-! ## The module -/

/-- The constant `WS_PORT`. -/
def WS_PORT : Nat := 8001

/-- The constant `WS_URL`. -/
def WS_URL : String := "ws://localhost:" ++ toString WS_PORT

/-- The object returned by a successful `new WebSocket(WS_URL)` once the four
handlers closing over `password` have been registered on it. -/
def newWebSocket (password : String) : Transport :=
  { url := WS_URL, password := password, opened := false, closed := false,
    sent := [], closeCalls := 0 }

/-- The text assigned to the log container when a connection attempt starts. -/
def placeholder : String := "Attempting to establish WebSocket connection..."

/-- The function `disconnectWebSocket`. -/
def disconnectWebSocket (s : State) : State :=
  match s.socket with
  | some k => { s with transports := updateAt Transport.close k s.transports }
  | none => s

/-- The body of the `try` block of `connectWebSocket`.  `ctorError` is the
outcome of the constructor `new WebSocket(WS_URL)`: `none` when it returns an
object, `some m` when it throws an exception whose `message` is `m`.  When the
constructor throws, the assignment to `socket` does not take place and the
exception leaves the block; otherwise the object is stored in `socket` and the
four handlers are registered on it. -/
def tryBlock (password : String) (ctorError : Option String) (s : State) : Completion :=
  match ctorError with
  | some m => { state := s, thrown := some m }
  | none =>
    { state := { s with socket := some s.transports.length,
                        transports := s.transports ++ [newWebSocket password] },
      thrown := none }

/-- The function `connectWebSocket`.  `password` is the value of the password
field at the time of the call and `ctorError` the outcome of the constructor.
The result holds the state after the call and the exception that leaves the
function, if one does; the `catch` clause turns an exception that leaves the
`try` block into a status text. -/
def connectWebSocket (L : Layout) (password : String) (ctorError : Option String)
    (s : State) : Completion :=
  match s.socket with
  | some _ =>
    { state := { s with status := "Already connected or connecting." }, thrown := none }
  | none =>
    let s1 : State :=
      setInnerHTML L [Node.text placeholder] { s with status := "Connecting..." }
    let c : Completion := tryBlock password ctorError s1
    match c.thrown with
    | none => c
    | some m => { state := { c.state with status := "Error: " ++ m }, thrown := none }

/-- The handler `socket.onopen`, a closure over `password`.  It sends on
whatever the module variable `socket` holds; when the variable is empty the
call raises inside the handler after the status has been written. -/
def onopen (password : String) (s : State) : State :=
  let s1 : State := { s with status := "Authenticating..." }
  match s1.socket with
  | some k => { s1 with transports := updateAt (Transport.send password) k s1.transports }
  | none => s1

/-- The entry built in the third branch of `socket.onmessage`. -/
def renderEntry (data : String) : Entry :=
  let logEntry : Entry := { classList := ["log-entry"], textContent := "" }
  let logEntry : Entry := { logEntry with textContent := data }
  match jsMatch data with
  | some token => logEntry.classListAdd token
  | none => logEntry

/-- The handler `socket.onmessage` applied to an event whose `data` is `data`. -/
def onmessage (L : Layout) (data : String) (s : State) : State :=
  if startsWith data "Authentication Success" then
    setInnerHTML L [] { s with status := "Connected & Streaming (Authenticated)" }
  else if startsWith data "Authentication Failed" then
    disconnectWebSocket { s with status := "Authentication Failed. Retrying..." }
  else
    let s1 : State := { s with log := s.log ++ [Node.div (renderEntry data)] }
    { s1 with scrollTop := setScrollTop L s1.log (L.scrollHeight s1.log) }

/-- The handler `socket.onclose`. -/
def onclose (s : State) : State :=
  { s with status := "Disconnected", socket := none }

/-- The handler `socket.onerror`; `detail` is the printed form of the event. -/
def onerror (detail : String) (s : State) : State :=
  { s with console := s.console ++ ["WebSocket Error: " ++ detail],
           status := "Connection Error" }

/-! ## Calls and events -/

/-- What can happen to the module: a call of one of its two functions from the
page, or an event delivered by the platform to the WebSocket object with index
`k`. -/
inductive Action where
  | connect (password : String) (ctorError : Option String)
  | disconnect
  | evOpen (k : Nat)
  | evMessage (k : Nat) (data : String)
  | evClose (k : Nat)
  | evError (k : Nat) (detail : String)
deriving DecidableEq, Repr

/-- The platform records that the open event has been delivered. -/
def Transport.markOpened (t : Transport) : Transport := { t with opened := true }

/-- The platform records that the close event has been delivered. -/
def Transport.markClosed (t : Transport) : Transport := { t with closed := true }

/-- One call or event.  The platform delivers events only to an object that
exists and whose close event has not been delivered yet; it delivers the open
event at most once per object, and message events only after the open event.
Calls from the page are always possible, and a call leaves its state behind
whether or not an exception leaves it.  The result is `none` when the platform
cannot deliver the event in the given state. -/
def step (L : Layout) (a : Action) (s : State) : Option State :=
  match a with
  | .connect password ctorError => some (connectWebSocket L password ctorError s).state
  | .disconnect => some (disconnectWebSocket s)
  | .evOpen k =>
    match s.transports[k]? with
    | some t =>
      if t.opened = false ∧ t.closed = false then
        some (onopen t.password
          { s with transports := updateAt Transport.markOpened k s.transports })
      else none
    | none => none
  | .evMessage k data =>
    match s.transports[k]? with
    | some t =>
      if t.opened = true ∧ t.closed = false then some (onmessage L data s) else none
    | none => none
  | .evClose k =>
    match s.transports[k]? with
    | some t =>
      if t.closed = false then
        some (onclose { s with transports := updateAt Transport.markClosed k s.transports })
      else none
    | none => none
  | .evError k detail =>
    match s.transports[k]? with
    | some t => if t.closed = false then some (onerror detail s) else none
    | none => none

/-- A sequence of calls and events, in order. -/
def run (L : Layout) : List Action → State → Option State
  | [], s => some s
  | a :: rest, s =>
    match step L a s with
    | some s1 => run L rest s1
    | none => none

/-- The state when the script has been loaded: `socket` is unset and no
WebSocket object has been constructed; the page content is whatever the
document provides. -/
def initial (status : String) (log : List Node) (scrollTop : Nat) : State :=
  { socket := none, transports := [], status := status, log := log,
    scrollTop := scrollTop, console := [] }

/-- The object with index `k` is live: it has been constructed and its close
event has not been delivered. -/
def Live (s : State) (k : Nat) : Prop :=
  ∃ t, s.transports[k]? = some t ∧ t.closed = false

/-- The number of live objects. -/
def liveCount (s : State) : Nat :=
  s.transports.countP (fun t => !t.closed)

/-- The `div` children of the log container, in document order. -/
def entries : List Node → List Entry
  | [] => []
  | Node.text _ :: rest => entries rest
  | Node.div e :: rest => e :: entries rest

/-- A run of messages delivered to the message handler one after the other. -/
def onmessages (L : Layout) : List String → State → State
  | [], s => s
  | data :: rest, s => onmessages L rest (onmessage L data s)

/-- A line carries control meaning when it starts with one of the two markers. -/
def isSentinel (data : String) : Bool :=
  startsWith data "Authentication Success" || startsWith data "Authentication Failed"

/-! ## Specification vocabulary -/

/-- The text `cs` contains, at offset `i`, an opening bracket followed by the
non-empty run `T` of characters from `A`..`Z` and `_`, followed by a closing
bracket. -/
def TokenAt (cs : List Char) (i : Nat) (T : List Char) : Prop :=
  ∃ pre post, cs = pre ++ '[' :: (T ++ ']' :: post) ∧ pre.length = i ∧
    T ≠ [] ∧ ∀ c ∈ T, isTokenChar c = true

/-- The offsets of `cs`, counted from `n`, at which the anchored pattern matches. -/
def tokenOffsetsFrom : Nat → List Char → List Nat
  | _, [] => []
  | n, c :: rest =>
    if (matchHere (c :: rest)).isSome then n :: tokenOffsetsFrom (n + 1) rest
    else tokenOffsetsFrom (n + 1) rest

/-- The invariant of the module: an object is live exactly when the module
variable holds it, and what has been sent on an object is the captured
credential once the open event has been delivered and nothing before. -/
def Inv (s : State) : Prop :=
  (∀ (k : Nat) (t : Transport), s.transports[k]? = some t →
    (t.closed = false ↔ s.socket = some k)) ∧
  (∀ k : Nat, s.socket = some k → k < s.transports.length) ∧
  (∀ (k : Nat) (t : Transport), s.transports[k]? = some t →
    t.sent = if t.opened = true then [t.password] else [])

/-- A page geometry for examples: every child node is 20 units high and the
visible box is 30 units high. -/
def rowLayout : Layout :=
  { scrollHeight := fun content => 20 * content.length, clientHeight := 30 }

/-- An example state: a page with status `Idle` on which `connectWebSocket` has
been called once with the credential `secret`. -/
def connectedOnce : State :=
  (connectWebSocket rowLayout "secret" none (initial "Idle" [] 0)).state

/-- An example session: connect, open, rejection by the server, close, and a
second connect. -/
def retrySession : List Action :=
  [Action.connect "secret" none, Action.evOpen 0,
   Action.evMessage 0 "Authentication Failed: bad password", Action.evClose 0,
   Action.connect "again" none]

/-- The state at the end of `retrySession`. -/
def retryEnd : State :=
  { socket := some 1,
    transports :=
      [{ url := "ws://localhost:8001", password := "secret", opened := true, closed := true,
         sent := ["secret"], closeCalls := 1 },
       { url := "ws://localhost:8001", password := "again", opened := false, closed := false,
         sent := [], closeCalls := 0 }],
    status := "Connecting...",
    log := [Node.text placeholder],
    scrollTop := 0,
    console := [] }

/-- An example state: an authenticated connection that has shown two log
lines. -/
def streaming : State :=
  { socket := some 0,
    transports :=
      [{ url := "ws://localhost:8001", password := "secret", opened := true, closed := false,
         sent := ["secret"], closeCalls := 0 }],
    status := "Connected & Streaming (Authenticated)",
    log := [Node.div { classList := ["log-entry", "ERROR"], textContent := "[ERROR] disk full" },
            Node.div { classList := ["log-entry"], textContent := "plain line" }],
    scrollTop := 10,
    console := [] }

/-! ## The pattern -/

theorem takeWhile_run (T post : List Char) (hT : ∀ c ∈ T, isTokenChar c = true) :
    (T ++ ']' :: post).takeWhile isTokenChar = T ∧
    (T ++ ']' :: post).dropWhile isTokenChar = ']' :: post := by
  induction T with
  | nil =>
    have h : isTokenChar ']' = false := by decide
    simp [List.takeWhile, List.dropWhile, h]
  | cons c T ih =>
    have hc : isTokenChar c = true := hT c (List.mem_cons_self _ _)
    have ih2 := ih (fun d hd => hT d (List.mem_cons_of_mem _ hd))
    simp [List.takeWhile, List.dropWhile, hc, ih2.1, ih2.2]

theorem matchHere_eq_some_iff (cs T : List Char) :
    matchHere cs = some T ↔ TokenAt cs 0 T := by
  constructor
  · intro h
    cases cs with
    | nil => simp [matchHere] at h
    | cons c rest =>
      simp only [matchHere] at h
      split at h
      · rename_i hc
        split at h
        · rename_i a as d ds htw hdw
          split at h
          · rename_i hd
            simp only [Option.some.injEq] at h
            refine ⟨[], ds, ?_, rfl, ?_, ?_⟩
            · have := List.takeWhile_append_dropWhile isTokenChar rest
              rw [hdw, h] at this
              subst hc; subst hd
              simpa using this.symm
            · rw [← h, htw]; simp
            · intro x hx
              rw [← h] at hx
              exact (List.mem_takeWhile_imp hx)
          · simp at h
        · simp at h
      · simp at h
  · rintro ⟨pre, post, hcs, hpre, hne, hT⟩
    have : pre = [] := List.length_eq_zero.mp hpre
    subst this
    simp only [List.nil_append] at hcs
    subst hcs
    obtain ⟨h1, h2⟩ := takeWhile_run T post hT
    cases T with
    | nil => exact absurd rfl hne
    | cons a as =>
      simp only [matchHere, h1, h2]
      simp

theorem tokenAt_cons_succ (c : Char) (cs : List Char) (j : Nat) (T : List Char) :
    TokenAt (c :: cs) (j + 1) T ↔ TokenAt cs j T := by
  constructor
  · rintro ⟨pre, post, hcs, hpre, hne, hT⟩
    cases pre with
    | nil => simp at hpre
    | cons p pre =>
      simp only [List.cons_append, List.cons.injEq] at hcs
      exact ⟨pre, post, hcs.2, by simpa using hpre, hne, hT⟩
  · rintro ⟨pre, post, hcs, hpre, hne, hT⟩
    exact ⟨c :: pre, post, by simp [hcs], by simp [hpre], hne, hT⟩

theorem tokenAt_nil (i : Nat) (T : List Char) : ¬ TokenAt [] i T := by
  rintro ⟨pre, post, hcs, -, -, -⟩
  cases pre <;> simp at hcs

theorem matchFrom_eq_none_iff (cs : List Char) :
    matchFrom cs = none ↔ ∀ i T, ¬ TokenAt cs i T := by
  induction cs with
  | nil => simp [matchFrom, tokenAt_nil]
  | cons c rest ih =>
    simp only [matchFrom]
    cases hm : matchHere (c :: rest) with
    | some t =>
      simp only [false_iff, not_forall, not_not, reduceCtorEq]
      exact ⟨0, t, (matchHere_eq_some_iff _ _).mp hm⟩
    | none =>
      simp only [ih]
      constructor
      · intro h i T hT
        cases i with
        | zero =>
          have := (matchHere_eq_some_iff _ _).mpr hT
          rw [hm] at this; cases this
        | succ j => exact h j T ((tokenAt_cons_succ _ _ _ _).mp hT)
      · intro h i T hT
        exact h (i + 1) T ((tokenAt_cons_succ _ _ _ _).mpr hT)

theorem matchFrom_eq_some_iff (cs T : List Char) :
    matchFrom cs = some T ↔
      ∃ i, TokenAt cs i T ∧ ∀ j T', TokenAt cs j T' → i ≤ j ∧ (j = i → T' = T) := by
  induction cs with
  | nil => simp [matchFrom, tokenAt_nil]
  | cons c rest ih =>
    simp only [matchFrom]
    cases hm : matchHere (c :: rest) with
    | some t =>
      simp only [Option.some.injEq]
      constructor
      · intro h
        subst h
        refine ⟨0, (matchHere_eq_some_iff _ _).mp hm, ?_⟩
        intro j T' hT'
        refine ⟨Nat.zero_le _, ?_⟩
        intro hj
        subst hj
        have := (matchHere_eq_some_iff _ _).mpr hT'
        rw [hm] at this
        exact (Option.some.inj this).symm
      · rintro ⟨i, hi, hmin⟩
        have h0 := (matchHere_eq_some_iff _ _).mp hm
        have := hmin 0 t h0
        have hi0 : i = 0 := Nat.le_zero.mp this.1
        exact this.2 hi0.symm
    | none =>
      simp only [ih]
      constructor
      · rintro ⟨i, hi, hmin⟩
        refine ⟨i + 1, (tokenAt_cons_succ _ _ _ _).mpr hi, ?_⟩
        intro j T' hT'
        cases j with
        | zero =>
          have := (matchHere_eq_some_iff _ _).mpr hT'
          rw [hm] at this; cases this
        | succ j =>
          have := hmin j T' ((tokenAt_cons_succ _ _ _ _).mp hT')
          exact ⟨Nat.succ_le_succ this.1, fun h => this.2 (Nat.succ.inj h)⟩
      · rintro ⟨i, hi, hmin⟩
        cases i with
        | zero =>
          have := (matchHere_eq_some_iff _ _).mpr hi
          rw [hm] at this; cases this
        | succ i =>
          refine ⟨i, (tokenAt_cons_succ _ _ _ _).mp hi, ?_⟩
          intro j T' hT'
          have := hmin (j + 1) T' ((tokenAt_cons_succ _ _ _ _).mpr hT')
          exact ⟨Nat.le_of_succ_le_succ this.1, fun h => this.2 (by rw [h])⟩

/-! ## Lists of objects and the invariant -/

theorem length_updateAt {α : Type} (f : α → α) (k : Nat) (l : List α) :
    (updateAt f k l).length = l.length := by
  induction l generalizing k with
  | nil => simp [updateAt]
  | cons x xs ih => cases k <;> simp [updateAt, ih]

theorem getElem?_updateAt {α : Type} (f : α → α) (k j : Nat) (l : List α) :
    (updateAt f k l)[j]? = if j = k then l[j]?.map f else l[j]? := by
  induction l generalizing k j with
  | nil => simp [updateAt]
  | cons x xs ih =>
    cases k with
    | zero => cases j <;> simp [updateAt]
    | succ k => cases j <;> simp [updateAt, ih]

theorem map_updateAt {α β : Type} (f : α → α) (g : α → β) (hg : ∀ x, g (f x) = g x)
    (k : Nat) (l : List α) : (updateAt f k l).map g = l.map g := by
  induction l generalizing k with
  | nil => simp [updateAt]
  | cons x xs ih => cases k <;> simp [updateAt, ih, hg]

theorem disconnect_some (s : State) (k : Nat) (h : s.socket = some k) :
    disconnectWebSocket s = { s with transports := updateAt Transport.close k s.transports } := by
  simp only [disconnectWebSocket, h]

theorem disconnect_none (s : State) (h : s.socket = none) : disconnectWebSocket s = s := by
  simp only [disconnectWebSocket, h]

theorem connect_occupied (L : Layout) (p : String) (e : Option String) (s : State) (k : Nat)
    (h : s.socket = some k) :
    connectWebSocket L p e s =
      { state := { s with status := "Already connected or connecting." }, thrown := none } := by
  simp only [connectWebSocket, h]

theorem connect_created (L : Layout) (p : String) (s : State) (h : s.socket = none) :
    connectWebSocket L p none s =
      { state := { s with status := "Connecting...", log := [Node.text placeholder],
                          scrollTop := min s.scrollTop (maxScroll L [Node.text placeholder]),
                          socket := some s.transports.length,
                          transports := s.transports ++ [newWebSocket p] },
        thrown := none } := by
  simp only [connectWebSocket, h, tryBlock, setInnerHTML]

theorem connect_failed (L : Layout) (p m : String) (s : State) (h : s.socket = none) :
    connectWebSocket L p (some m) s =
      { state := { s with status := "Error: " ++ m, log := [Node.text placeholder],
                          scrollTop := min s.scrollTop (maxScroll L [Node.text placeholder]) },
        thrown := none } := by
  simp only [connectWebSocket, h, tryBlock, setInnerHTML]

theorem connect_returns (L : Layout) (p : String) (e : Option String) (s : State) :
    (connectWebSocket L p e s).thrown = none := by
  rcases Option.eq_none_or_eq_some s.socket with hs | ⟨k, hs⟩
  · cases e with
    | none => rw [connect_created L p s hs]
    | some m => rw [connect_failed L p m s hs]
  · rw [connect_occupied L p e s k hs]

theorem onopen_some (p : String) (s : State) (k : Nat) (h : s.socket = some k) :
    onopen p s = { s with status := "Authenticating...",
                          transports := updateAt (Transport.send p) k s.transports } := by
  simp only [onopen, h]

theorem onopen_none (p : String) (s : State) (h : s.socket = none) :
    onopen p s = { s with status := "Authenticating..." } := by
  simp only [onopen, h]

theorem inv_initial (status : String) (log : List Node) (scrollTop : Nat) :
    Inv (initial status log scrollTop) := by
  refine ⟨?_, ?_, ?_⟩ <;> simp [initial]

theorem inv_of_eq (s s' : State) (h1 : s'.socket = s.socket)
    (h2 : s'.transports = s.transports) (h : Inv s) : Inv s' := by
  unfold Inv at *
  rw [h1, h2]
  exact h

theorem inv_disconnect (s : State) (h : Inv s) : Inv (disconnectWebSocket s) := by
  rcases Option.eq_none_or_eq_some s.socket with hs | ⟨k, hs⟩
  · rw [disconnect_none s hs]; exact h
  · rw [disconnect_some s k hs]
    obtain ⟨ha, hb, hc⟩ := h
    refine ⟨?_, ?_, ?_⟩
    · intro j t hj
      simp only [getElem?_updateAt] at hj
      split at hj
      · cases hl : s.transports[j]? with
        | none => simp [hl] at hj
        | some t0 =>
          simp only [hl, Option.map_some', Option.some.injEq] at hj
          subst hj
          simpa [Transport.close] using ha j t0 hl
      · exact ha j t hj
    · intro j hj
      simp only [length_updateAt]
      exact hb j hj
    · intro j t hj
      simp only [getElem?_updateAt] at hj
      split at hj
      · cases hl : s.transports[j]? with
        | none => simp [hl] at hj
        | some t0 =>
          simp only [hl, Option.map_some', Option.some.injEq] at hj
          subst hj
          simpa [Transport.close] using hc j t0 hl
      · exact hc j t hj

theorem inv_connect (L : Layout) (p : String) (e : Option String) (s : State) (h : Inv s) :
    Inv (connectWebSocket L p e s).state := by
  rcases Option.eq_none_or_eq_some s.socket with hs | ⟨k, hs⟩
  swap
  · rw [connect_occupied L p e s k hs]; exact inv_of_eq s _ rfl rfl h
  · cases e with
    | some m => rw [connect_failed L p m s hs]; exact inv_of_eq s _ rfl rfl h
    | none =>
      rw [connect_created L p s hs]
      obtain ⟨ha, hb, hc⟩ := h
      refine ⟨?_, ?_, ?_⟩
      · intro j t hj
        simp only at hj ⊢
        rcases Nat.lt_trichotomy j s.transports.length with hlt | heq | hgt
        · rw [List.getElem?_append_left hlt] at hj
          have := ha j t hj
          rw [hs] at this
          simp only [reduceCtorEq, iff_false] at this
          constructor
          · intro h; exact absurd h this
          · intro h
            simp only [Option.some.injEq] at h
            omega
        · subst heq
          simp at hj
          subst hj
          simp [newWebSocket]
        · rw [List.getElem?_eq_none (by simp; omega)] at hj
          cases hj
      · intro j hj
        simp at hj ⊢
        omega
      · intro j t hj
        simp only at hj
        rcases Nat.lt_trichotomy j s.transports.length with hlt | heq | hgt
        · rw [List.getElem?_append_left hlt] at hj
          exact hc j t hj
        · subst heq
          simp at hj
          subst hj
          simp [newWebSocket]
        · rw [List.getElem?_eq_none (by simp; omega)] at hj
          cases hj

theorem inv_onmessage (L : Layout) (data : String) (s : State) (h : Inv s) :
    Inv (onmessage L data s) := by
  unfold onmessage
  split
  · exact inv_of_eq s _ rfl rfl h
  · split
    · exact inv_disconnect _ (inv_of_eq s _ rfl rfl h)
    · exact inv_of_eq s _ rfl rfl h

theorem inv_onerror (detail : String) (s : State) (h : Inv s) : Inv (onerror detail s) :=
  inv_of_eq s _ rfl rfl h

theorem inv_evOpen (s : State) (k : Nat) (t : Transport) (h : Inv s)
    (hk : s.transports[k]? = some t) (hopen : t.opened = false) (hclosed : t.closed = false) :
    Inv (onopen t.password
      { s with transports := updateAt Transport.markOpened k s.transports }) := by
  obtain ⟨ha, hb, hc⟩ := h
  have hsock : s.socket = some k := (ha k t hk).mp hclosed
  rw [onopen_some _ _ k (by exact hsock)]
  refine ⟨?_, ?_, ?_⟩
  · intro j u hj
    simp only [getElem?_updateAt] at hj
    by_cases hjk : j = k
    · subst hjk
      simp only [if_true, hk, Option.map_some', Option.some.injEq] at hj
      subst hj
      simpa [Transport.send, Transport.markOpened] using ha j t hk
    · simp only [hjk, if_false] at hj
      exact ha j u hj
  · intro j hj
    simp only [length_updateAt]
    exact hb j hj
  · intro j u hj
    simp only [getElem?_updateAt] at hj
    by_cases hjk : j = k
    · subst hjk
      simp only [if_true, hk, Option.map_some', Option.some.injEq] at hj
      subst hj
      have := hc j t hk
      simp [Transport.send, Transport.markOpened, this, hopen]
    · simp only [hjk, if_false] at hj
      exact hc j u hj

theorem inv_evClose (s : State) (k : Nat) (t : Transport) (h : Inv s)
    (hk : s.transports[k]? = some t) (hclosed : t.closed = false) :
    Inv (onclose { s with transports := updateAt Transport.markClosed k s.transports }) := by
  obtain ⟨ha, hb, hc⟩ := h
  have hsock : s.socket = some k := (ha k t hk).mp hclosed
  simp only [onclose]
  refine ⟨?_, ?_, ?_⟩
  · intro j u hj
    simp only [getElem?_updateAt] at hj
    by_cases hjk : j = k
    · subst hjk
      simp only [if_true, hk, Option.map_some', Option.some.injEq] at hj
      subst hj
      simp [Transport.markClosed]
    · simp only [hjk, if_false] at hj
      have := ha j u hj
      rw [hsock] at this
      simp only [Option.some.injEq] at this
      simp only [reduceCtorEq, iff_false]
      intro hu
      exact hjk (this.mp hu).symm
  · intro j hj
    cases hj
  · intro j u hj
    simp only [getElem?_updateAt] at hj
    by_cases hjk : j = k
    · subst hjk
      simp only [if_true, hk, Option.map_some', Option.some.injEq] at hj
      subst hj
      simpa [Transport.markClosed] using hc j t hk
    · simp only [hjk, if_false] at hj
      exact hc j u hj

theorem inv_step (L : Layout) (a : Action) (s s' : State) (h : Inv s)
    (hs : step L a s = some s') : Inv s' := by
  cases a with
  | connect p e =>
    simp only [step, Option.some.injEq] at hs
    subst hs
    exact inv_connect L p e s h
  | disconnect =>
    simp only [step, Option.some.injEq] at hs
    subst hs
    exact inv_disconnect s h
  | evOpen k =>
    simp only [step] at hs
    cases hk : s.transports[k]? with
    | none => simp [hk] at hs
    | some t =>
      simp only [hk] at hs
      split at hs
      · rename_i hg
        simp only [Option.some.injEq] at hs
        subst hs
        exact inv_evOpen s k t h hk hg.1 hg.2
      · cases hs
  | evMessage k data =>
    simp only [step] at hs
    cases hk : s.transports[k]? with
    | none => simp [hk] at hs
    | some t =>
      simp only [hk] at hs
      split at hs
      · simp only [Option.some.injEq] at hs
        subst hs
        exact inv_onmessage L data s h
      · cases hs
  | evClose k =>
    simp only [step] at hs
    cases hk : s.transports[k]? with
    | none => simp [hk] at hs
    | some t =>
      simp only [hk] at hs
      split at hs
      · rename_i hg
        simp only [Option.some.injEq] at hs
        subst hs
        exact inv_evClose s k t h hk hg
      · cases hs
  | evError k detail =>
    simp only [step] at hs
    cases hk : s.transports[k]? with
    | none => simp [hk] at hs
    | some t =>
      simp only [hk] at hs
      split at hs
      · simp only [Option.some.injEq] at hs
        subst hs
        exact inv_onerror detail s h
      · cases hs

theorem inv_run (L : Layout) (acts : List Action) (s s' : State) (h : Inv s)
    (hr : run L acts s = some s') : Inv s' := by
  induction acts generalizing s with
  | nil =>
    simp only [run, Option.some.injEq] at hr
    subst hr
    exact h
  | cons a rest ih =>
    simp only [run] at hr
    cases hs : step L a s with
    | none => simp [hs] at hr
    | some s1 =>
      simp only [hs] at hr
      exact ih s1 (inv_step L a s s1 h hs) hr

theorem live_unique (s : State) (h : Inv s) (i j : Nat) (hi : Live s i) (hj : Live s j) :
    i = j := by
  obtain ⟨ti, hti, hci⟩ := hi
  obtain ⟨tj, htj, hcj⟩ := hj
  have h1 := (h.1 i ti hti).mp hci
  have h2 := (h.1 j tj htj).mp hcj
  rw [h1] at h2
  exact Option.some.inj h2

theorem countP_le_one_of_unique {α : Type} (p : α → Bool) (l : List α)
    (h : ∀ (i j : Nat) (a b : α), l[i]? = some a → l[j]? = some b → p a = true → p b = true → i = j) :
    l.countP p ≤ 1 := by
  induction l with
  | nil => simp
  | cons x xs ih =>
    have hxs : xs.countP p ≤ 1 := by
      apply ih
      intro i j a b hi hj pa pb
      have := h (i + 1) (j + 1) a b (by simpa using hi) (by simpa using hj) pa pb
      omega
    by_cases hx : p x = true
    · have hz : xs.countP p = 0 := by
        rw [List.countP_eq_zero]
        intro a ha
        obtain ⟨n, hn, hget⟩ := List.getElem_of_mem ha
        intro pa
        have := h 0 (n + 1) x a (by simp) (by simp [List.getElem?_eq_getElem hn, hget]) hx pa
        omega
      simp [List.countP_cons, hx, hz]
    · simp [List.countP_cons, hx, hxs]

theorem liveCount_le_one (s : State) (h : Inv s) : liveCount s ≤ 1 := by
  unfold liveCount
  apply countP_le_one_of_unique
  intro i j a b hi hj pa pb
  exact live_unique s h i j ⟨a, hi, by simpa using pa⟩ ⟨b, hj, by simpa using pb⟩

/-! ## Rendering -/

theorem failed_not_success (data : String)
    (h : startsWith data "Authentication Failed" = true) :
    startsWith data "Authentication Success" = false := by
  unfold startsWith at *
  obtain ⟨rest, hrest⟩ := List.isPrefixOf_iff_prefix.mp h
  rw [← hrest]
  rfl

theorem matchFrom_tokenChars (cs T : List Char) (h : matchFrom cs = some T) :
    T ≠ [] ∧ ∀ c ∈ T, isTokenChar c = true := by
  obtain ⟨i, ⟨pre, post, -, -, hne, hT⟩, -⟩ := (matchFrom_eq_some_iff cs T).mp h
  exact ⟨hne, hT⟩

theorem jsMatch_ne_base (data token : String) (h : jsMatch data = some token) :
    token ∉ ["log-entry"] := by
  unfold jsMatch at h
  cases hm : matchFrom data.data with
  | none => simp [hm] at h
  | some T =>
    simp only [hm, Option.map_some', Option.some.injEq] at h
    intro hmem
    simp only [List.mem_singleton] at hmem
    have hT := (matchFrom_tokenChars _ _ hm).2
    have hd : T = "log-entry".data := by rw [← hmem, ← h]
    have := hT 'l' (by rw [hd]; decide)
    revert this
    decide

theorem renderEntry_classList (data : String) :
    (renderEntry data).classList = "log-entry" :: (jsMatch data).toList := by
  unfold renderEntry
  cases hm : jsMatch data with
  | none => rfl
  | some token =>
    have := jsMatch_ne_base data token hm
    simp only [Entry.classListAdd, this, if_false]
    rfl

theorem renderEntry_textContent (data : String) : (renderEntry data).textContent = data := by
  unfold renderEntry
  cases hm : jsMatch data with
  | none => rfl
  | some token =>
    simp only [Entry.classListAdd]
    split <;> rfl

theorem onmessage_log (L : Layout) (data : String) (s : State)
    (h : isSentinel data = false) :
    onmessage L data s =
      { s with log := s.log ++ [Node.div (renderEntry data)],
               scrollTop := maxScroll L (s.log ++ [Node.div (renderEntry data)]) } := by
  unfold isSentinel at h
  simp only [Bool.or_eq_false_iff] at h
  simp only [onmessage, h.1, h.2, Bool.false_eq_true, if_false, setScrollTop, maxScroll]
  congr 1
  exact Nat.min_eq_right (Nat.sub_le _ _)

theorem tokenAt_mem_offsets (cs : List Char) (n i : Nat) (T : List Char)
    (h : TokenAt cs i T) : n + i ∈ tokenOffsetsFrom n cs := by
  induction cs generalizing n i with
  | nil => exact absurd h (tokenAt_nil i T)
  | cons c rest ih =>
    cases i with
    | zero =>
      have := (matchHere_eq_some_iff _ _).mpr h
      simp [tokenOffsetsFrom, this]
    | succ j =>
      have hj := (tokenAt_cons_succ _ _ _ _).mp h
      have := ih (n + 1) j hj
      have e : n + (j + 1) = n + 1 + j := by omega
      rw [e]
      simp only [tokenOffsetsFrom]
      split
      · exact List.mem_cons_of_mem _ this
      · exact this

theorem entries_append (a b : List Node) : entries (a ++ b) = entries a ++ entries b := by
  induction a with
  | nil => rfl
  | cons x xs ih =>
    cases x with
    | text c => simpa [entries] using ih
    | div e => simp [entries, ih]

theorem entries_map_div (es : List Entry) : entries (es.map Node.div) = es := by
  induction es with
  | nil => rfl
  | cons e es ih => simp [entries, ih]

theorem onmessages_log (L : Layout) (msgs : List String) (s : State)
    (h : ∀ m ∈ msgs, isSentinel m = false) :
    (onmessages L msgs s).log = s.log ++ msgs.map (fun m => Node.div (renderEntry m)) ∧
    (onmessages L msgs s).socket = s.socket ∧
    (onmessages L msgs s).transports = s.transports ∧
    (onmessages L msgs s).status = s.status ∧
    (msgs ≠ [] →
      (onmessages L msgs s).scrollTop = maxScroll L (onmessages L msgs s).log) := by
  induction msgs generalizing s with
  | nil => simp [onmessages]
  | cons m rest ih =>
    have hm := h m (List.mem_cons_self _ _)
    have hrest := ih (onmessage L m s) (fun x hx => h x (List.mem_cons_of_mem _ hx))
    simp only [onmessages]
    rw [onmessage_log L m s hm] at hrest ⊢
    obtain ⟨h1, h2, h3, h4, h5⟩ := hrest
    refine ⟨by simpa using h1, h2, h3, h4, ?_⟩
    intro _
    cases rest with
    | nil => simp [onmessages]
    | cons r rs => exact h5 (by simp)

/-! ## What each call and handler leaves alone -/

theorem disconnect_frame (s : State) :
    (disconnectWebSocket s).socket = s.socket ∧
    (disconnectWebSocket s).status = s.status ∧
    (disconnectWebSocket s).log = s.log ∧
    (disconnectWebSocket s).transports.length = s.transports.length ∧
    (disconnectWebSocket s).transports.map Transport.sent = s.transports.map Transport.sent ∧
    (disconnectWebSocket s).transports.map Transport.password =
      s.transports.map Transport.password := by
  rcases Option.eq_none_or_eq_some s.socket with hs | ⟨k, hs⟩
  · rw [disconnect_none s hs]; simp
  · rw [disconnect_some s k hs]
    refine ⟨rfl, rfl, rfl, length_updateAt _ _ _, ?_, ?_⟩
    · exact map_updateAt Transport.close Transport.sent (fun _ => rfl) k s.transports
    · exact map_updateAt Transport.close Transport.password (fun _ => rfl) k s.transports

theorem onmessage_frame (L : Layout) (data : String) (s : State) :
    (onmessage L data s).socket = s.socket ∧
    (onmessage L data s).transports.length = s.transports.length ∧
    (onmessage L data s).transports.map Transport.sent = s.transports.map Transport.sent ∧
    (onmessage L data s).transports.map Transport.password =
      s.transports.map Transport.password := by
  unfold onmessage
  split
  · simp [setInnerHTML]
  · split
    · have := disconnect_frame { s with status := "Authentication Failed. Retrying..." }
      exact ⟨this.1, this.2.2.2.1, this.2.2.2.2.1, this.2.2.2.2.2⟩
    · simp

theorem connect_frame (L : Layout) (p : String) (e : Option String) (s : State) :
    ∃ extra : List Transport,
      (connectWebSocket L p e s).state.transports = s.transports ++ extra ∧
      (∀ t ∈ extra, t = newWebSocket p) ∧
      (∀ k : Nat, s.socket = some k → (connectWebSocket L p e s).state.socket = some k) := by
  rcases Option.eq_none_or_eq_some s.socket with hs | ⟨k, hs⟩
  · cases e with
    | none =>
      rw [connect_created L p s hs]
      exact ⟨[newWebSocket p], rfl, by simp, by simp [hs]⟩
    | some m =>
      rw [connect_failed L p m s hs]
      exact ⟨[], by simp, by simp, by simp⟩
  · rw [connect_occupied L p e s k hs]
    exact ⟨[], by simp, by simp, by simp⟩

theorem step_length (L : Layout) (a : Action) (s s' : State)
    (ha : ∀ p e, a ≠ Action.connect p e) (h : step L a s = some s') :
    s'.transports.length = s.transports.length := by
  cases a with
  | connect p e => exact absurd rfl (ha p e)
  | disconnect =>
    simp only [step, Option.some.injEq] at h
    subst h
    exact (disconnect_frame s).2.2.2.1
  | evOpen k =>
    simp only [step] at h
    split at h
    · split at h
      · simp only [Option.some.injEq] at h
        subst h
        simp only [onopen]
        split <;> simp [length_updateAt]
      · cases h
    · cases h
  | evMessage k data =>
    simp only [step] at h
    split at h
    · split at h
      · simp only [Option.some.injEq] at h
        subst h
        exact (onmessage_frame L data s).2.1
      · cases h
    · cases h
  | evClose k =>
    simp only [step] at h
    split at h
    · split at h
      · simp only [Option.some.injEq] at h
        subst h
        simp [onclose, length_updateAt]
      · cases h
    · cases h
  | evError k detail =>
    simp only [step] at h
    split at h
    · split at h
      · simp only [Option.some.injEq] at h
        subst h
        rfl
      · cases h
    · cases h

theorem step_sent (L : Layout) (a : Action) (s s' : State)
    (ha : ∀ k, a ≠ Action.evOpen k) (h : step L a s = some s') :
    ∃ extra : List (List String),
      s'.transports.map Transport.sent = s.transports.map Transport.sent ++ extra ∧
      ∀ x ∈ extra, x = [] := by
  cases a with
  | connect p e =>
    simp only [step, Option.some.injEq] at h
    subst h
    obtain ⟨extra, h1, h2, -⟩ := connect_frame L p e s
    refine ⟨extra.map Transport.sent, by rw [h1]; simp, ?_⟩
    intro x hx
    obtain ⟨t, ht, rfl⟩ := List.mem_map.mp hx
    rw [h2 t ht]
    rfl
  | disconnect =>
    simp only [step, Option.some.injEq] at h
    subst h
    exact ⟨[], by simpa using (disconnect_frame s).2.2.2.2.1, by simp⟩
  | evOpen k => exact absurd rfl (ha k)
  | evMessage k data =>
    simp only [step] at h
    split at h
    · split at h
      · simp only [Option.some.injEq] at h
        subst h
        exact ⟨[], by simpa using (onmessage_frame L data s).2.2.1, by simp⟩
      · cases h
    · cases h
  | evClose k =>
    simp only [step] at h
    split at h
    · split at h
      · simp only [Option.some.injEq] at h
        subst h
        refine ⟨[], ?_, by simp⟩
        simp only [onclose, List.append_nil]
        exact map_updateAt Transport.markClosed Transport.sent (fun _ => rfl) k s.transports
      · cases h
    · cases h
  | evError k detail =>
    simp only [step] at h
    split at h
    · split at h
      · simp only [Option.some.injEq] at h
        subst h
        exact ⟨[], by simp [onerror], by simp⟩
      · cases h
    · cases h

theorem step_slot (L : Layout) (a : Action) (s s' : State) (k : Nat)
    (h : step L a s = some s') (hk : s.socket = some k) (hk' : s'.socket ≠ some k) :
    ∃ j, a = Action.evClose j := by
  cases a with
  | connect p e =>
    simp only [step, Option.some.injEq] at h
    subst h
    obtain ⟨extra, -, -, h3⟩ := connect_frame L p e s
    exact absurd (h3 k hk) hk'
  | disconnect =>
    simp only [step, Option.some.injEq] at h
    subst h
    exact absurd ((disconnect_frame s).1.trans hk) hk'
  | evOpen j =>
    simp only [step] at h
    split at h
    · split at h
      · simp only [Option.some.injEq] at h
        subst h
        exfalso
        apply hk'
        simp only [onopen]
        split <;> exact hk
      · cases h
    · cases h
  | evMessage j data =>
    simp only [step] at h
    split at h
    · split at h
      · simp only [Option.some.injEq] at h
        subst h
        exact absurd ((onmessage_frame L data s).1.trans hk) hk'
      · cases h
    · cases h
  | evClose j => exact ⟨j, rfl⟩
  | evError j detail =>
    simp only [step] at h
    split at h
    · split at h
      · simp only [Option.some.injEq] at h
        subst h
        exact absurd hk hk'
      · cases h
    · cases h

/-! ## The claims -/

/-- C1 (as stated, refuted).  In the state reached by one successful call of
`connectWebSocket` the slot is occupied; a second call leaves the slot as it
is, and the status text it writes is not the text `Already connected or
connecting` without the full stop. -/
theorem C1_status_text_counterexample :
    connectedOnce.socket = some 0 ∧
    (connectWebSocket rowLayout "secret" none connectedOnce).state.socket = some 0 ∧
    (connectWebSocket rowLayout "secret" none connectedOnce).state.status ≠
      "Already connected or connecting" := by
  decide

/-- C1 (amended).  In every state whose slot is occupied, `connectWebSocket`
returns normally and changes nothing but the status text, which becomes
`Already connected or connecting.` with the full stop: no object is
constructed, the slot keeps its connection, the log container is untouched and
nothing is sent.  In every state reached from the loaded script by calls and
events, at most one object is live. -/
theorem C1_at_most_one_connection :
    (∀ (L : Layout) (p : String) (e : Option String) (s : State) (k : Nat),
      s.socket = some k →
      connectWebSocket L p e s =
        { state := { s with status := "Already connected or connecting." },
          thrown := none }) ∧
    (∀ (L : Layout) (status : String) (log : List Node) (scrollTop : Nat)
        (acts : List Action) (s : State),
      run L acts (initial status log scrollTop) = some s →
      (∀ i j, Live s i → Live s j → i = j) ∧ liveCount s ≤ 1) := by
  refine ⟨connect_occupied, ?_⟩
  intro L status log scrollTop acts s hr
  have hinv := inv_run L acts _ s (inv_initial status log scrollTop) hr
  exact ⟨live_unique s hinv, liveCount_le_one s hinv⟩

/-- C1 (amended), on examples: a second call on `connectedOnce`, and the state
at the end of `retrySession`, in which the first object is closed and only the
second is live. -/
theorem C1_at_most_one_connection_witness :
    connectWebSocket rowLayout "other" none connectedOnce =
      { state := { connectedOnce with status := "Already connected or connecting." },
        thrown := none } ∧
    liveCount retryEnd ≤ 1 :=
  ⟨C1_at_most_one_connection.1 rowLayout "other" none connectedOnce 0 (by decide),
   (C1_at_most_one_connection.2 rowLayout "Idle" [] 0 retrySession retryEnd (by decide)).2⟩

theorem step_password (L : Layout) (a : Action) (s s' : State) (h : step L a s = some s') :
    ∃ extra : List String,
      s'.transports.map Transport.password = s.transports.map Transport.password ++ extra := by
  cases a with
  | connect p e =>
    simp only [step, Option.some.injEq] at h
    subst h
    obtain ⟨extra, h1, -, -⟩ := connect_frame L p e s
    exact ⟨extra.map Transport.password, by rw [h1]; simp⟩
  | disconnect =>
    simp only [step, Option.some.injEq] at h
    subst h
    exact ⟨[], by simpa using (disconnect_frame s).2.2.2.2.2⟩
  | evOpen k =>
    simp only [step] at h
    split at h
    · split at h
      · simp only [Option.some.injEq] at h
        subst h
        refine ⟨[], ?_⟩
        simp only [onopen, List.append_nil]
        split
        · rename_i j hj
          simp only
          rw [map_updateAt (Transport.send _) Transport.password (fun _ => rfl),
            map_updateAt Transport.markOpened Transport.password (fun _ => rfl)]
        · simp only
          rw [map_updateAt Transport.markOpened Transport.password (fun _ => rfl)]
      · cases h
    · cases h
  | evMessage k data =>
    simp only [step] at h
    split at h
    · split at h
      · simp only [Option.some.injEq] at h
        subst h
        exact ⟨[], by simpa using (onmessage_frame L data s).2.2.2⟩
      · cases h
    · cases h
  | evClose k =>
    simp only [step] at h
    split at h
    · split at h
      · simp only [Option.some.injEq] at h
        subst h
        refine ⟨[], ?_⟩
        simp only [onclose, List.append_nil]
        exact map_updateAt Transport.markClosed Transport.password (fun _ => rfl) k s.transports
      · cases h
    · cases h
  | evError k detail =>
    simp only [step] at h
    split at h
    · split at h
      · simp only [Option.some.injEq] at h
        subst h
        exact ⟨[], by simp [onerror]⟩
      · cases h
    · cases h

theorem run_password (L : Layout) (acts : List Action) (s s' : State)
    (h : run L acts s = some s') :
    ∃ extra : List String,
      s'.transports.map Transport.password = s.transports.map Transport.password ++ extra := by
  induction acts generalizing s with
  | nil =>
    simp only [run, Option.some.injEq] at h
    subst h
    exact ⟨[], by simp⟩
  | cons a rest ih =>
    simp only [run] at h
    cases hs : step L a s with
    | none => simp [hs] at h
    | some s1 =>
      simp only [hs] at h
      obtain ⟨e1, h1⟩ := step_password L a s s1 hs
      obtain ⟨e2, h2⟩ := ih s1 h
      exact ⟨e1 ++ e2, by rw [h2, h1, List.append_assoc]⟩

theorem evOpen_effect (L : Layout) (s s' : State) (k : Nat) (hinv : Inv s)
    (h : step L (Action.evOpen k) s = some s') :
    s'.status = "Authenticating..." ∧
    ∃ t, s.transports[k]? = some t ∧ t.sent = [] ∧
      s'.transports[k]? = some { t with opened := true, sent := [t.password] } := by
  simp only [step] at h
  cases hk : s.transports[k]? with
  | none => simp [hk] at h
  | some t =>
    simp only [hk] at h
    split at h
    · rename_i hg
      simp only [Option.some.injEq] at h
      subst h
      have hsock : s.socket = some k := (hinv.1 k t hk).mp hg.2
      have hsent : t.sent = [] := by
        have := hinv.2.2 k t hk
        simpa [hg.1] using this
      rw [onopen_some _ _ k (by exact hsock)]
      refine ⟨rfl, t, rfl, hsent, ?_⟩
      simp [getElem?_updateAt, hk, Transport.send, Transport.markOpened, hsent]
    · cases h

/-- C2.  With the slot occupied, the open handler writes the status
`Authenticating...` and calls `send` once, with the credential captured at
connect time as it is, on the connection in the slot.  In every reachable
state the open event of an object finds that nothing has been sent on it yet
and leaves the captured credential as its only payload.  For every call of
`connectWebSocket` with credential `p` that constructs an object, in every
state reached afterwards the payloads sent on that object are `[p]` once its
open event has been delivered and none before.  No call or event other than
the open event adds a payload to any object, and a new object starts with
none. -/
theorem C2_handshake_first :
    (∀ (p : String) (s : State) (k : Nat), s.socket = some k →
      onopen p s = { s with status := "Authenticating...",
                            transports := updateAt (Transport.send p) k s.transports }) ∧
    (∀ (L : Layout) (status : String) (log : List Node) (scrollTop : Nat)
        (acts : List Action) (s s' : State) (k : Nat),
      run L acts (initial status log scrollTop) = some s →
      step L (Action.evOpen k) s = some s' →
      s'.status = "Authenticating..." ∧
      ∃ t, s.transports[k]? = some t ∧ t.sent = [] ∧
        s'.transports[k]? = some { t with opened := true, sent := [t.password] }) ∧
    (∀ (L : Layout) (status : String) (log : List Node) (scrollTop : Nat)
        (before after : List Action) (p : String) (s1 s2 : State),
      run L before (initial status log scrollTop) = some s1 → s1.socket = none →
      run L (Action.connect p none :: after) s1 = some s2 →
      ∃ t, s2.transports[s1.transports.length]? = some t ∧ t.password = p ∧
        t.sent = if t.opened = true then [p] else []) ∧
    (∀ (L : Layout) (a : Action) (s s' : State), (∀ k, a ≠ Action.evOpen k) →
      step L a s = some s' →
      ∃ extra : List (List String),
        s'.transports.map Transport.sent = s.transports.map Transport.sent ++ extra ∧
        ∀ x ∈ extra, x = []) := by
  refine ⟨onopen_some, ?_, ?_, step_sent⟩
  · intro L status log scrollTop acts s s' k hr hs
    exact evOpen_effect L s s' k (inv_run L acts _ s (inv_initial status log scrollTop) hr) hs
  intro L status log scrollTop before after p s1 s2 h1 hs1 h2
  have hinv1 := inv_run L before _ s1 (inv_initial status log scrollTop) h1
  have hinv2 := inv_run L _ s1 s2 hinv1 h2
  simp only [run, step] at h2
  obtain ⟨extra, hx⟩ := run_password L after _ s2 h2
  rw [connect_created L p s1 hs1] at hx
  simp only [List.map_append, List.map_cons, List.map_nil, newWebSocket] at hx
  have hget : (s2.transports.map Transport.password)[s1.transports.length]? = some p := by
    rw [hx, List.append_assoc]
    rw [List.getElem?_append_right (by simp)]
    simp
  rw [List.getElem?_map] at hget
  cases ht : s2.transports[s1.transports.length]? with
  | none => simp [ht] at hget
  | some t =>
    simp only [ht, Option.map_some', Option.some.injEq] at hget
    refine ⟨t, rfl, hget, ?_⟩
    have := hinv2.2.2 _ t ht
    rw [hget] at this
    exact this

/-- C2 on examples: the open handler and the open event on `connectedOnce`,
the first object at the end of `retrySession`, and the call of
`disconnectWebSocket` on `streaming`. -/
theorem C2_handshake_first_witness :
    onopen "secret" connectedOnce =
      { connectedOnce with
        status := "Authenticating...",
        transports := updateAt (Transport.send "secret") 0 connectedOnce.transports } ∧
    (onopen "secret" { connectedOnce with
        transports := updateAt Transport.markOpened 0 connectedOnce.transports }).status =
      "Authenticating..." ∧
    (∃ t, retryEnd.transports[0]? = some t ∧ t.password = "secret" ∧
      t.sent = if t.opened = true then ["secret"] else []) ∧
    (∃ extra : List (List String),
      (disconnectWebSocket streaming).transports.map Transport.sent =
        streaming.transports.map Transport.sent ++ extra ∧ ∀ x ∈ extra, x = []) :=
  ⟨C2_handshake_first.1 "secret" connectedOnce 0 (by decide),
   (C2_handshake_first.2.1 rowLayout "Idle" [] 0 [Action.connect "secret" none]
     connectedOnce _ 0 (by decide) (by decide)).1,
   C2_handshake_first.2.2.1 rowLayout "Idle" [] 0 [] retrySession.tail "secret"
     (initial "Idle" [] 0) retryEnd (by decide) (by decide) (by decide),
   C2_handshake_first.2.2.2 rowLayout Action.disconnect streaming (disconnectWebSocket streaming)
     (by intro k h; cases h) (by rfl)⟩

theorem renderEntry_of_leftmost (data : String) (i : Nat) (T : List Char)
    (hT : TokenAt data.data i T) (hmin : ∀ j T', TokenAt data.data j T' → i ≤ j) :
    (renderEntry data).classList = ["log-entry", String.mk T] := by
  rw [renderEntry_classList]
  cases hm : matchFrom data.data with
  | none => exact absurd hT ((matchFrom_eq_none_iff _).mp hm i T)
  | some T0 =>
    obtain ⟨i0, h0, hmin0⟩ := (matchFrom_eq_some_iff _ _).mp hm
    have h1 := hmin0 i T hT
    have h2 := hmin i0 T0 h0
    have hi : i = i0 := Nat.le_antisymm h2 h1.1
    have hTT : T = T0 := h1.2 hi
    simp [jsMatch, hm, hTT]

theorem renderEntry_of_no_token (data : String) (h : ∀ i T, ¬ TokenAt data.data i T) :
    (renderEntry data).classList = ["log-entry"] := by
  rw [renderEntry_classList]
  have := (matchFrom_eq_none_iff _).mpr h
  simp [jsMatch, this]

/-- C3.  For every inbound text that starts with neither marker and in which
a bracketed token occurs at no more than one place, the message handler
appends one entry whose text content is the input as received.  Every entry is
created with the element class `log-entry`; the class the handler adds on top
of it is the token without its brackets when the text contains one, and no
class is added when the text contains none. -/
theorem C3_classification (L : Layout) (data : String) (s : State)
    (hns : isSentinel data = false)
    (hone : ∀ i j T T', TokenAt data.data i T → TokenAt data.data j T' → i = j) :
    (onmessage L data s).log = s.log ++ [Node.div (renderEntry data)] ∧
    (renderEntry data).textContent = data ∧
    (∀ i T, TokenAt data.data i T →
      (renderEntry data).classList = ["log-entry", String.mk T]) ∧
    ((∀ i T, ¬ TokenAt data.data i T) → (renderEntry data).classList = ["log-entry"]) := by
  refine ⟨?_, renderEntry_textContent data, ?_, renderEntry_of_no_token data⟩
  · rw [onmessage_log L data s hns]
  · intro i T hT
    exact renderEntry_of_leftmost data i T hT
      (fun j T' hj => Nat.le_of_eq (hone i j T T' hT hj))

/-- C3 on the example of the specification: `[ERROR] disk full` is rendered
with its own text and with the class `ERROR`. -/
theorem C3_classification_witness :
    (onmessage rowLayout "[ERROR] disk full" connectedOnce).log =
      connectedOnce.log ++ [Node.div (renderEntry "[ERROR] disk full")] ∧
    (renderEntry "[ERROR] disk full").textContent = "[ERROR] disk full" ∧
    (renderEntry "[ERROR] disk full").classList = ["log-entry", "ERROR"] :=
  have hone : ∀ i j T T', TokenAt "[ERROR] disk full".data i T →
      TokenAt "[ERROR] disk full".data j T' → i = j := by
    intro i j T T' hi hj
    have h1 := tokenAt_mem_offsets _ 0 i T hi
    have h2 := tokenAt_mem_offsets _ 0 j T' hj
    have e : tokenOffsetsFrom 0 "[ERROR] disk full".data = [0] := by decide
    rw [e] at h1 h2
    simp only [List.mem_singleton] at h1 h2
    omega
  have h := C3_classification rowLayout "[ERROR] disk full" connectedOnce (by decide) hone
  ⟨h.1, h.2.1,
   h.2.2.1 0 "ERROR".data ⟨[], " disk full".data, by decide, rfl, by decide, by decide⟩⟩

/-- C4.  For every inbound line that starts with `Authentication Success` and
every prior state, the message handler writes the status `Connected &
Streaming (Authenticated)`, empties the log container and changes nothing
else: no entry is appended for the line, the slot and the objects are as
before, and the scroll offset is what it was, cut down to what the emptied
container admits. -/
theorem C4_success_sentinel (L : Layout) (data : String) (s : State)
    (h : startsWith data "Authentication Success" = true) :
    onmessage L data s =
      { s with status := "Connected & Streaming (Authenticated)", log := [],
               scrollTop := min s.scrollTop (maxScroll L []) } ∧
    (onmessage L data s).status = "Connected & Streaming (Authenticated)" ∧
    (onmessage L data s).log = [] ∧
    (onmessage L data s).socket = s.socket ∧
    (onmessage L data s).transports = s.transports := by
  simp [onmessage, h, setInnerHTML]

/-- C4 on the example of the specification, received in `streaming`: the two
entries shown are removed and the scroll offset falls from 10 to 0. -/
theorem C4_success_sentinel_witness :
    (onmessage rowLayout "Authentication Success: welcome" streaming).status =
      "Connected & Streaming (Authenticated)" ∧
    (onmessage rowLayout "Authentication Success: welcome" streaming).log = [] ∧
    (onmessage rowLayout "Authentication Success: welcome" streaming).socket =
      streaming.socket ∧
    (onmessage rowLayout "Authentication Success: welcome" streaming).scrollTop = 0 :=
  have h := C4_success_sentinel rowLayout "Authentication Success: welcome" streaming
    (by decide)
  ⟨h.2.1, h.2.2.1, h.2.2.2.1, by rw [h.1]; decide⟩

/-- C5.  For every inbound line that starts with `Authentication Failed`,
received while the slot holds connection `k`, the message handler writes the
status `Authentication Failed. Retrying...`, calls `close` once on connection
`k` and changes nothing else: the log container and the slot are as before
and no object is constructed.  No call or event other than a call of
`connectWebSocket` changes the number of objects constructed. -/
theorem C5_failure_sentinel (L : Layout) (data : String) (s : State) (k : Nat)
    (h : startsWith data "Authentication Failed" = true) (hk : s.socket = some k) :
    onmessage L data s =
      { s with status := "Authentication Failed. Retrying...",
               transports := updateAt Transport.close k s.transports } ∧
    (∀ t, s.transports[k]? = some t →
      (onmessage L data s).transports[k]? = some { t with closeCalls := t.closeCalls + 1 }) ∧
    (onmessage L data s).log = s.log ∧
    (onmessage L data s).socket = some k ∧
    (onmessage L data s).transports.length = s.transports.length ∧
    (∀ (a : Action) (s1 s2 : State), (∀ p e, a ≠ Action.connect p e) →
      step L a s1 = some s2 → s2.transports.length = s1.transports.length) := by
  have hs := failed_not_success data h
  have e : onmessage L data s =
      { s with status := "Authentication Failed. Retrying...",
               transports := updateAt Transport.close k s.transports } := by
    simp only [onmessage, hs, h, Bool.false_eq_true, if_false, if_true]
    exact disconnect_some _ k hk
  refine ⟨e, ?_, ?_, ?_, ?_, step_length L⟩
  · intro t ht
    rw [e]
    simp [getElem?_updateAt, ht, Transport.close]
  · rw [e]
  · rw [e]; exact hk
  · rw [e]; exact length_updateAt _ _ _

/-- C5 on the example of the specification, received in `streaming`. -/
theorem C5_failure_sentinel_witness :
    (onmessage rowLayout "Authentication Failed: bad password" streaming).status =
      "Authentication Failed. Retrying..." ∧
    (onmessage rowLayout "Authentication Failed: bad password" streaming).transports.map
      Transport.closeCalls = [1] ∧
    (onmessage rowLayout "Authentication Failed: bad password" streaming).log =
      streaming.log ∧
    (onmessage rowLayout "Authentication Failed: bad password" streaming).socket = some 0 :=
  have h := C5_failure_sentinel rowLayout "Authentication Failed: bad password" streaming 0
    (by decide) (by decide)
  ⟨by rw [h.1], by rw [h.1]; decide, h.2.2.1, h.2.2.2.1⟩

/-- C6.  In every state, those with the slot occupied included, the close
handler writes the status `Disconnected` and empties the slot.  A call of
`connectWebSocket` made right after it is not turned away: it returns
normally, writes the status `Connecting...`, replaces the content of the log
container by the placeholder text and, the constructor returning an object,
puts that new object into the slot.  The same holds for the close event as the
platform delivers it. -/
theorem C6_close_resets_availability (L : Layout) (p : String) (s : State) :
    (onclose s).status = "Disconnected" ∧
    (onclose s).socket = none ∧
    connectWebSocket L p none (onclose s) =
      { state := { s with status := "Connecting...",
                          log := [Node.text placeholder],
                          scrollTop := min s.scrollTop (maxScroll L [Node.text placeholder]),
                          socket := some s.transports.length,
                          transports := s.transports ++ [newWebSocket p] },
        thrown := none } ∧
    (∀ (j : Nat) (s1 : State), step L (Action.evClose j) s = some s1 →
      s1.status = "Disconnected" ∧ s1.socket = none ∧
      (connectWebSocket L p none s1).thrown = none ∧
      (connectWebSocket L p none s1).state.status = "Connecting..." ∧
      (connectWebSocket L p none s1).state.log = [Node.text placeholder] ∧
      (connectWebSocket L p none s1).state.socket = some s.transports.length ∧
      (connectWebSocket L p none s1).state.transports = s1.transports ++ [newWebSocket p]) := by
  refine ⟨rfl, rfl, ?_, ?_⟩
  · rw [connect_created L p (onclose s) rfl]
    rfl
  · intro j s1 h
    simp only [step] at h
    split at h
    · split at h
      · simp only [Option.some.injEq] at h
        subst h
        rw [connect_created L p _ rfl]
        simp [onclose, length_updateAt]
      · cases h
    · cases h

/-- C6 on an example: the close event of the connection in `streaming` is
delivered and `connectWebSocket` is called again. -/
theorem C6_close_resets_availability_witness :
    (onclose streaming).status = "Disconnected" ∧
    (onclose streaming).socket = none ∧
    (connectWebSocket rowLayout "again" none (onclose
      { streaming with
        transports := updateAt Transport.markClosed 0 streaming.transports })).state.status =
      "Connecting..." ∧
    (connectWebSocket rowLayout "again" none (onclose
      { streaming with
        transports := updateAt Transport.markClosed 0 streaming.transports })).state.log =
      [Node.text placeholder] ∧
    (connectWebSocket rowLayout "again" none (onclose
      { streaming with
        transports := updateAt Transport.markClosed 0 streaming.transports })).state.socket =
      some 1 ∧
    (connectWebSocket rowLayout "again" none (onclose streaming)).state.scrollTop = 0 :=
  have h := C6_close_resets_availability rowLayout "again" streaming
  have h4 := h.2.2.2 0 (onclose
      { streaming with
        transports := updateAt Transport.markClosed 0 streaming.transports }) (by decide)
  ⟨h.1, h.2.1, h4.2.2.2.1, h4.2.2.2.2.1, h4.2.2.2.2.2.1, by rw [h.2.2.1]; decide⟩

/-- C7.  For every run of inbound messages none of which starts with a marker,
the message handler appends one entry per message at the end of the log
container, in the order of receipt, the text of each entry being its message.
When the container holds no entry at the start, as after `connectWebSocket`
has reset it, it holds exactly as many entries as messages were received.
After the last append the scroll offset is the largest offset the container
admits for its content at that moment. -/
theorem C7_append_and_scroll (L : Layout) (msgs : List String) (s : State)
    (hns : ∀ m ∈ msgs, isSentinel m = false) :
    (onmessages L msgs s).log = s.log ++ msgs.map (fun m => Node.div (renderEntry m)) ∧
    entries (onmessages L msgs s).log = entries s.log ++ msgs.map renderEntry ∧
    (entries s.log = [] →
      (entries (onmessages L msgs s).log).length = msgs.length ∧
      (entries (onmessages L msgs s).log).map Entry.textContent = msgs) ∧
    (msgs ≠ [] → (onmessages L msgs s).scrollTop = maxScroll L (onmessages L msgs s).log) ∧
    (∀ (p : String) (s0 : State), s0.socket = none →
      entries (connectWebSocket L p none s0).state.log = []) := by
  obtain ⟨h1, -, -, -, h5⟩ := onmessages_log L msgs s hns
  have h2 : entries (onmessages L msgs s).log = entries s.log ++ msgs.map renderEntry := by
    rw [h1, entries_append]
    have : msgs.map (fun m => Node.div (renderEntry m)) = (msgs.map renderEntry).map Node.div := by
      simp
    rw [this, entries_map_div]
  refine ⟨h1, h2, ?_, h5, ?_⟩
  · intro he
    rw [h2, he]
    refine ⟨by simp, ?_⟩
    simp only [List.nil_append, List.map_map]
    have : (Entry.textContent ∘ renderEntry) = id := by
      funext m
      exact renderEntry_textContent m
    rw [this, List.map_id]
  · intro p s0 h0
    rw [connect_created L p s0 h0]
    rfl

/-- C7 on an example: three log lines received on the fresh connection
`connectedOnce`. -/
theorem C7_append_and_scroll_witness :
    (entries (onmessages rowLayout ["[LOGIN] admin", "plain line", "[ERROR] disk full"]
      connectedOnce).log).length = 3 ∧
    (entries (onmessages rowLayout ["[LOGIN] admin", "plain line", "[ERROR] disk full"]
      connectedOnce).log).map Entry.textContent =
      ["[LOGIN] admin", "plain line", "[ERROR] disk full"] ∧
    (onmessages rowLayout ["[LOGIN] admin", "plain line", "[ERROR] disk full"]
      connectedOnce).scrollTop =
      maxScroll rowLayout (onmessages rowLayout
        ["[LOGIN] admin", "plain line", "[ERROR] disk full"] connectedOnce).log :=
  have h := C7_append_and_scroll rowLayout ["[LOGIN] admin", "plain line", "[ERROR] disk full"]
    connectedOnce (by decide)
  ⟨(h.2.2.1 (by decide)).1, (h.2.2.1 (by decide)).2, h.2.2.2.1 (by decide)⟩

/-- C8.  In every state with the slot occupied by connection `k`, each of
`disconnectWebSocket`, the error handler, the open handler, the message
handler on any line and `connectWebSocket` leaves the slot occupied by `k`;
a call or event after which the slot no longer holds `k` is a close event.
`disconnectWebSocket` calls `close` on connection `k` and changes nothing
else, the status included, and it changes nothing at all when the slot is
empty.  The error handler writes the status `Connection Error` and a console
diagnostic and changes nothing else: it calls `close` on no object. -/
theorem C8_slot_cleared_only_by_close (L : Layout) (p : String) (e : Option String)
    (detail data : String) (s : State) (k : Nat) (hk : s.socket = some k) :
    ((disconnectWebSocket s).socket = some k ∧
      (onerror detail s).socket = some k ∧
      (onopen p s).socket = some k ∧
      (onmessage L data s).socket = some k ∧
      (connectWebSocket L p e s).state.socket = some k) ∧
    (∀ (a : Action) (s1 : State), step L a s = some s1 → s1.socket ≠ some k →
      ∃ j, a = Action.evClose j) ∧
    (disconnectWebSocket s = { s with transports := updateAt Transport.close k s.transports } ∧
      (disconnectWebSocket s).status = s.status) ∧
    (∀ s0 : State, s0.socket = none → disconnectWebSocket s0 = s0) ∧
    (onerror detail s =
        { s with status := "Connection Error",
                 console := s.console ++ ["WebSocket Error: " ++ detail] } ∧
      (onerror detail s).transports = s.transports) := by
  refine ⟨⟨?_, hk, ?_, ?_, ?_⟩, ?_, ⟨disconnect_some s k hk, (disconnect_frame s).2.1⟩,
    disconnect_none, ⟨rfl, rfl⟩⟩
  · exact (disconnect_frame s).1.trans hk
  · rw [onopen_some p s k hk]; exact hk
  · exact (onmessage_frame L data s).1.trans hk
  · rw [connect_occupied L p e s k hk]; exact hk
  · intro a s1 h1 h2
    exact step_slot L a s s1 k h1 hk h2

/-- C8 on an example: the calls and handlers applied to `streaming`. -/
theorem C8_slot_cleared_only_by_close_witness :
    ((disconnectWebSocket streaming).socket = some 0 ∧
      (onerror "reset" streaming).socket = some 0 ∧
      (onopen "secret" streaming).socket = some 0 ∧
      (onmessage rowLayout "Authentication Failed: bad password" streaming).socket = some 0 ∧
      (connectWebSocket rowLayout "secret" none streaming).state.socket = some 0) ∧
    (disconnectWebSocket streaming).status = streaming.status ∧
    (onerror "reset" streaming).status = "Connection Error" ∧
    (onerror "reset" streaming).transports = streaming.transports :=
  have h := C8_slot_cleared_only_by_close rowLayout "secret" none "reset"
    "Authentication Failed: bad password" streaming 0 (by decide)
  ⟨h.1, h.2.2.1.2, by rw [h.2.2.2.2.1], h.2.2.2.2.2⟩

/-- C9.  When `connectWebSocket` is called with the slot empty and the
constructor throws with message `m`, the exception leaves the `try` block and
is caught there: nothing is thrown out of `connectWebSocket`, the status ends
as `Error: ` followed by `m`, the slot is still empty and no object has been
constructed.  A further call is therefore attempted again: it constructs an
object when the constructor returns one, and reports the new failure when it
throws again. -/
theorem C9_setup_failure (L : Layout) (p m : String) (s : State) (h : s.socket = none) :
    (tryBlock p (some m)
      (setInnerHTML L [Node.text placeholder] { s with status := "Connecting..." })).thrown =
      some m ∧
    (connectWebSocket L p (some m) s).thrown = none ∧
    connectWebSocket L p (some m) s =
      { state := { s with status := "Error: " ++ m, log := [Node.text placeholder],
                          scrollTop := min s.scrollTop (maxScroll L [Node.text placeholder]) },
        thrown := none } ∧
    (connectWebSocket L p (some m) s).state.status = "Error: " ++ m ∧
    (connectWebSocket L p (some m) s).state.socket = none ∧
    (connectWebSocket L p (some m) s).state.transports = s.transports ∧
    (∀ q : String,
      connectWebSocket L q none (connectWebSocket L p (some m) s).state =
        { state := { s with status := "Connecting...", log := [Node.text placeholder],
                            scrollTop := min s.scrollTop (maxScroll L [Node.text placeholder]),
                            socket := some s.transports.length,
                            transports := s.transports ++ [newWebSocket q] },
          thrown := none }) ∧
    (∀ q m2 : String,
      connectWebSocket L q (some m2) (connectWebSocket L p (some m) s).state =
        { state := { s with status := "Error: " ++ m2, log := [Node.text placeholder],
                            scrollTop := min s.scrollTop (maxScroll L [Node.text placeholder]) },
          thrown := none }) := by
  have e := connect_failed L p m s h
  refine ⟨rfl, by rw [e], e, by rw [e], by rw [e]; exact h, by rw [e], ?_, ?_⟩
  · intro q
    rw [e]
    refine (connect_created L q
      { s with status := "Error: " ++ m, log := [Node.text placeholder],
               scrollTop := min s.scrollTop (maxScroll L [Node.text placeholder]) } h).trans ?_
    simp
  · intro q m2
    rw [e]
    refine (connect_failed L q m2
      { s with status := "Error: " ++ m, log := [Node.text placeholder],
               scrollTop := min s.scrollTop (maxScroll L [Node.text placeholder]) } h).trans ?_
    simp

/-- C9 on an example: the constructor throws on a page that has shown two log
lines and whose connection has been closed, then returns an object on the next
call. -/
theorem C9_setup_failure_witness :
    (connectWebSocket rowLayout "secret" (some "The URL is invalid.")
      (onclose streaming)).thrown = none ∧
    (connectWebSocket rowLayout "secret" (some "The URL is invalid.")
      (onclose streaming)).state.status = "Error: The URL is invalid." ∧
    (connectWebSocket rowLayout "secret" (some "The URL is invalid.")
      (onclose streaming)).state.socket = none ∧
    (connectWebSocket rowLayout "secret" (some "The URL is invalid.")
      (onclose streaming)).state.scrollTop = 0 ∧
    (connectWebSocket rowLayout "secret" none
      (connectWebSocket rowLayout "secret" (some "The URL is invalid.")
        (onclose streaming)).state).state.socket = some 1 :=
  have h := C9_setup_failure rowLayout "secret" "The URL is invalid." (onclose streaming) rfl
  ⟨h.2.1, h.2.2.2.1, h.2.2.2.2.1, by rw [h.2.2.1]; decide,
   by rw [h.2.2.2.2.2.2.1 "secret"]; decide⟩

/-- C10.  For every inbound line that starts with neither marker, the entry
appended by the message handler carries the element class `log-entry` and at
most one more class: the run `T` of the leftmost place where the line has an
opening bracket, a non-empty run of `A`..`Z` and `_`, and a closing bracket.
Bracketed groups of any other shape are not such places and are passed over;
places further right are ignored; when there is no such place no class is
added. -/
theorem C10_token_selection (L : Layout) (data : String) (s : State)
    (hns : isSentinel data = false) :
    (onmessage L data s).log = s.log ++ [Node.div (renderEntry data)] ∧
    (renderEntry data).classList = "log-entry" :: (jsMatch data).toList ∧
    (∀ i T, TokenAt data.data i T → (∀ j T', TokenAt data.data j T' → i ≤ j) →
      (renderEntry data).classList = ["log-entry", String.mk T]) ∧
    ((∀ i T, ¬ TokenAt data.data i T) → (renderEntry data).classList = ["log-entry"]) := by
  refine ⟨?_, renderEntry_classList data, renderEntry_of_leftmost data,
    renderEntry_of_no_token data⟩
  rw [onmessage_log L data s hns]

/-- C10 on the examples of the claim: of the three bracketed groups of
`[2024-01-01] [LOGIN] ok [ERROR]` only `LOGIN` becomes a class, and
`[error] x` gets none. -/
theorem C10_token_selection_witness :
    (renderEntry "[2024-01-01] [LOGIN] ok [ERROR]").classList = ["log-entry", "LOGIN"] ∧
    (renderEntry "[error] x").classList = ["log-entry"] :=
  have e1 : tokenOffsetsFrom 0 "[2024-01-01] [LOGIN] ok [ERROR]".data = [13, 24] := by decide
  have e2 : tokenOffsetsFrom 0 "[error] x".data = [] := by decide
  ⟨(C10_token_selection rowLayout "[2024-01-01] [LOGIN] ok [ERROR]" streaming
      (by decide)).2.2.1 13 "LOGIN".data
      ⟨"[2024-01-01] ".data, " ok [ERROR]".data, by decide, rfl, by decide, by decide⟩
      (fun j T' hj => by
        have h1 := tokenAt_mem_offsets _ 0 j T' hj
        rw [e1] at h1
        simp only [List.mem_cons, List.mem_singleton, List.not_mem_nil, or_false] at h1
        omega),
   (C10_token_selection rowLayout "[error] x" streaming (by decide)).2.2.2
      (fun i T hi => by
        have h1 := tokenAt_mem_offsets _ 0 i T hi
        rw [e2] at h1
        exact absurd h1 (List.not_mem_nil _))⟩

end WebsocketClient
